import Mathlib

/-!
Shallow embedding of the todo HTTP service in `src/app.js`: a single Express
application over a Mongoose model `Todo`.  Request-body fields are modelled as
JavaScript values (`JSVal`), the document collection as a `List TodoDoc`, and
each route handler as a function from the store (plus the request data and the
current time) to the new store and the HTTP response.  Time is an abstract
`Nat` tick supplied to every operation (`Date.now()`).
-/

/-- A JavaScript value as it can appear in a parsed JSON request body field
(`req.body.text`, `req.body.done`).  `undef` stands for an absent field. -/
inductive JSVal where
  | undef
  | null
  | bool (b : Bool)
  | num (n : Int)
  | str (s : String)
deriving Repr, DecidableEq

/-- JavaScript truthiness, as used by `!text` in the POST handler
(src/app.js line 96). -/
def JSVal.truthy : JSVal → Bool
  | .undef => false
  | .null => false
  | .bool b => b
  | .num n => n != 0
  | .str s => s != ""

/-- Whitespace as removed by JavaScript `String.prototype.trim`
(ASCII subset modelled). -/
def isWS (c : Char) : Bool :=
  c == ' ' || c == '\t' || c == '\n' || c == '\r'

/-- Trim on a character list: drop whitespace from the front, then from the
back. -/
def trimCharList (l : List Char) : List Char :=
  ((l.dropWhile isWS).reverse.dropWhile isWS).reverse

/-- Model of JavaScript `String.prototype.trim`. -/
def jsTrim (s : String) : String :=
  String.mk (trimCharList s.data)

/-- Calling `.trim()` on a JavaScript value: defined only on strings; on any
other value the call raises a TypeError, modelled as `none`. -/
def JSVal.callTrim : JSVal → Option String
  | .str s => some (jsTrim s)
  | _ => none

/-- Boolean casting performed by the document layer on a `done` value
(mongoose `SchemaBoolean.cast`): booleans pass through, `0`/`1` and the
strings "true"/"false"/"1"/"0"/"yes"/"no" are converted, `null` is kept as a
null value (`some none`), everything else raises a CastError (`none`). -/
def castBool : JSVal → Option (Option Bool)
  | .bool b => some (some b)
  | .null => some none
  | .num 0 => some (some false)
  | .num 1 => some (some true)
  | .num _ => none
  | .str "true" => some (some true)
  | .str "1" => some (some true)
  | .str "yes" => some (some true)
  | .str "false" => some (some false)
  | .str "0" => some (some false)
  | .str "no" => some (some false)
  | .str _ => none
  | .undef => none

/-- A stored todo document, with the fields of `todoSchema`
(src/app.js lines 35-52) plus the driver-generated `_id` and the default
version key `__v` that mongoose adds to every saved document.  `done` is
`Option Bool` because the boolean path also admits a stored null. -/
structure TodoDoc where
  _id : String
  text : String
  done : Option Bool
  createdAt : Nat
  updatedAt : Nat
  __v : Nat
deriving Repr, DecidableEq

/-- A JSON value, for response bodies. -/
inductive Json where
  | null
  | bool (b : Bool)
  | num (n : Nat)
  | str (s : String)
  | arr (elems : List Json)
  | obj (fields : List (String × Json))

/-- The field names of a JSON object (in order). -/
def objFields : Json → List String
  | .obj fs => fs.map Prod.fst
  | _ => []

/-- Serialization of a stored `done` value. -/
def doneJson : Option Bool → Json
  | none => Json.null
  | some b => Json.bool b

/-- How `res.json(todo)` serializes a raw mongoose document (GET /todos,
src/app.js line 84): `_id` first, then the schema paths in declaration
order, then the version key `__v`. -/
def TodoDoc.toJSON (d : TodoDoc) : Json :=
  Json.obj [("_id", Json.str d._id), ("text", Json.str d.text),
    ("done", doneJson d.done), ("createdAt", Json.num d.createdAt),
    ("updatedAt", Json.num d.updatedAt), ("__v", Json.num d.__v)]

/-- The five-field object the id-based handlers build explicitly
(src/app.js lines 107-113, 129-135, 171-177). -/
def todoResponse (d : TodoDoc) : Json :=
  Json.obj [("id", Json.str d._id), ("text", Json.str d.text),
    ("done", doneJson d.done), ("createdAt", Json.num d.createdAt),
    ("updatedAt", Json.num d.updatedAt)]

/-- An HTTP response: a status code and an optional JSON body
(`res.status(204).send()` has no body). -/
structure HttpResponse where
  status : Nat
  body : Option Json

/-- `res.status(code).json({ error: msg })`. -/
def jsonError (code : Nat) (msg : String) : HttpResponse :=
  ⟨code, some (Json.obj [("error", Json.str msg)])⟩

/-- Well-formedness of a path identifier for the document store: a MongoDB
ObjectId cast succeeds on a 24-character hex string (or a raw 12-character
string).  Anything else raises a CastError in `findById` and friends. -/
def isValidObjectId (s : String) : Bool :=
  s.length == 12 ||
    (s.length == 24 && s.data.all (fun c =>
      c.isDigit || ('a' ≤ c && c ≤ 'f') || ('A' ≤ c && c ≤ 'F')))

/-- `Todo.findById`: the first document whose `_id` equals the (well-formed)
identifier. -/
def findFirst (st : List TodoDoc) (idStr : String) : Option TodoDoc :=
  st.find? (fun d => d._id == idStr)

/-- Replace the first document matching the identifier. -/
def updateFirst (st : List TodoDoc) (idStr : String) (f : TodoDoc → TodoDoc) :
    List TodoDoc :=
  match st with
  | [] => []
  | d :: rest =>
    if d._id == idStr then f d :: rest else d :: updateFirst rest idStr f

/-- Remove the first document matching the identifier
(`Todo.findByIdAndDelete`). -/
def removeFirst (st : List TodoDoc) (idStr : String) : List TodoDoc :=
  match st with
  | [] => []
  | d :: rest =>
    if d._id == idStr then rest else d :: removeFirst rest idStr

/-- The ordering used by `Todo.find().sort(\x7b createdAt: -1 \x7d)`:
most recently created first. -/
def byCreatedDesc (a b : TodoDoc) : Prop := b.createdAt ≤ a.createdAt

instance : DecidableRel byCreatedDesc := fun a b => Nat.decLe b.createdAt a.createdAt

instance : IsTotal TodoDoc byCreatedDesc :=
  ⟨fun a b => Nat.le_total b.createdAt a.createdAt⟩

instance : IsTrans TodoDoc byCreatedDesc :=
  ⟨fun _ _ _ h1 h2 => Nat.le_trans h2 h1⟩

/-- Sort the collection by `createdAt` descending. -/
def sortByCreatedDesc (l : List TodoDoc) : List TodoDoc :=
  List.insertionSort byCreatedDesc l

/-- GET /todos (src/app.js lines 81-89): fetch all documents sorted by
`createdAt` descending and return them serialized as raw documents via
`res.json(todos)`. -/
def getTodos (st : List TodoDoc) : HttpResponse :=
  ⟨200, some (Json.arr ((sortByCreatedDesc st).map TodoDoc.toJSON))⟩

/-- POST /todos (src/app.js lines 92-118).  `!text` rejects falsy values
with 400; `.trim()` on a truthy non-string raises a TypeError caught by the
catch branch (500); a trim that is empty is rejected with 400; otherwise a
new document is saved with the trimmed text, the destructured `done`
(default `false`), `createdAt`/`updatedAt` defaults refreshed by the
pre-save hook, and the 201 body is the explicit five-field object. -/
def postTodos (st : List TodoDoc) (textV doneV : JSVal) (newId : String)
    (now : Nat) : List TodoDoc × HttpResponse :=
  if !textV.truthy then (st, jsonError 400 "Text is required")
  else
    match textV.callTrim with
    | none => (st, jsonError 500 "Failed to create todo")
    | some s =>
      if s = "" then (st, jsonError 400 "Text is required")
      else
        let doneV' := if doneV = JSVal.undef then JSVal.bool false else doneV
        match castBool doneV' with
        | none => (st, jsonError 500 "Failed to create todo")
        | some db =>
          let d : TodoDoc := ⟨newId, s, db, now, now, 0⟩
          (st ++ [d], ⟨201, some (todoResponse d)⟩)

/-- GET /todos/:id (src/app.js lines 121-145): CastError on a malformed
identifier gives 400, a missing document gives 404, otherwise 200 with the
five-field object. -/
def getTodoById (st : List TodoDoc) (idStr : String) : HttpResponse :=
  if !isValidObjectId idStr then jsonError 400 "Invalid todo ID format"
  else
    match findFirst st idStr with
    | none => jsonError 404 "Todo not found"
    | some d => ⟨200, some (todoResponse d)⟩

/-- The update document built by the PUT handler: `text` (already trimmed)
and the raw `done` value, each present only when supplied in the body. -/
structure UpdateData where
  text : Option String
  done : Option JSVal
deriving Repr, DecidableEq

/-- Casting the `done` part of an update document: absent stays absent, a
present value goes through the boolean cast. -/
def castDoneUpdate : Option JSVal → Option (Option (Option Bool))
  | none => some none
  | some v => (castBool v).map some

/-- Outcome of `Todo.findByIdAndUpdate(id, updateData,
\x7b new: true, runValidators: true \x7d)`. -/
inductive UpdateResult where
  | castError
  | validationError
  | notFound
  | ok (st : List TodoDoc) (d : TodoDoc)

/-- `Todo.findByIdAndUpdate` with `runValidators: true`
(src/app.js lines 161-165), modelled from the schema: the identifier is cast
first (CastError when malformed), then the update is cast (CastError when
`done` cannot be cast to a boolean), then update validators run (the
`required: true` validator on the string path `text` rejects the empty
string), then the matched document is updated, with `updatedAt` refreshed to
now by the pre findOneAndUpdate hook (src/app.js lines 60-63); `new: true`
returns the updated document. -/
def findByIdAndUpdate (st : List TodoDoc) (idStr : String) (u : UpdateData)
    (now : Nat) : UpdateResult :=
  if !isValidObjectId idStr then .castError
  else
    match castDoneUpdate u.done with
    | none => .castError
    | some doneSet =>
      if u.text = some "" then .validationError
      else
        match findFirst st idStr with
        | none => .notFound
        | some d0 =>
          let d1 : TodoDoc :=
            { d0 with
              text := u.text.getD d0.text
              done := doneSet.getD d0.done
              updatedAt := now }
          .ok (updateFirst st idStr (fun _ => d1)) d1

/-- PUT /todos/:id (src/app.js lines 148-187).  `text.trim()` on a present
non-string raises a TypeError before the store is reached (caught: 500);
otherwise the update document carries the trimmed text and/or the raw
`done`; a CastError from the store (malformed id or uncastable `done`)
gives 400 "Invalid todo ID format", any other store fault gives 500, a
missing document gives 404, success gives 200 with the five-field object. -/
def putTodos (st : List TodoDoc) (idStr : String) (textV doneV : JSVal)
    (now : Nat) : List TodoDoc × HttpResponse :=
  if textV ≠ JSVal.undef ∧ textV.callTrim = none then
    (st, jsonError 500 "Failed to update todo")
  else
    let u : UpdateData :=
      { text := if textV = JSVal.undef then none else textV.callTrim
        done := if doneV = JSVal.undef then none else some doneV }
    match findByIdAndUpdate st idStr u now with
    | .castError => (st, jsonError 400 "Invalid todo ID format")
    | .validationError => (st, jsonError 500 "Failed to update todo")
    | .notFound => (st, jsonError 404 "Todo not found")
    | .ok st' d => (st', ⟨200, some (todoResponse d)⟩)

/-- DELETE /todos/:id (src/app.js lines 190-208). -/
def deleteTodo (st : List TodoDoc) (idStr : String) :
    List TodoDoc × HttpResponse :=
  if !isValidObjectId idStr then (st, jsonError 400 "Invalid todo ID format")
  else
    match findFirst st idStr with
    | none => (st, jsonError 404 "Todo not found")
    | some _ => (removeFirst st idStr, ⟨204, none⟩)

/-- A mutating operation on the store: a POST /todos or a PUT /todos/:id
request, with the request data and the time at which it runs. -/
inductive Op where
  | create (textV doneV : JSVal) (newId : String) (now : Nat)
  | update (idStr : String) (textV doneV : JSVal) (now : Nat)

/-- The store after one operation. -/
def applyOp (st : List TodoDoc) : Op → List TodoDoc
  | .create t dv i n => (postTodos st t dv i n).1
  | .update i t dv n => (putTodos st i t dv n).1

/-- The store after a sequence of create/update operations from the empty
store. -/
def runOps (ops : List Op) : List TodoDoc :=
  ops.foldl applyOp []

/-- A string that is neither empty nor whitespace-only: it contains a
non-whitespace character. -/
def textNonBlank (s : String) : Bool :=
  s.data.any (fun c => !isWS c)

/-- Identifiers bound at the top level of the module src/app.js.  The result
of `app.listen(PORT, ...)` on line 223 is not assigned to any variable: in
particular there is no binding named `server`. -/
def topLevelBindings : List String :=
  ["express", "mongoose", "cors", "app", "MONGODB_HOST", "MONGODB_PORT",
   "MONGODB_DB", "MONGODB_URI", "todoSchema", "Todo", "PORT"]

/-- Outcome of running the SIGTERM handler. -/
inductive ShutdownOutcome where
  | cleanExit (code : Nat)
  | uncaughtReferenceError (name : String)
deriving Repr, DecidableEq

/-- The SIGTERM handler (src/app.js lines 231-240).  Its first statement
evaluates `server.close(...)`; evaluating the identifier `server` in a scope
where it is not bound raises a ReferenceError.  Only when that lookup
succeeds does the handler close the listener, close the database connection
and call `process.exit(0)`. -/
def sigtermHandler : ShutdownOutcome :=
  if "server" ∈ topLevelBindings then .cleanExit 0
  else .uncaughtReferenceError "server"

/-! ### Helper lemmas -/

theorem dropWhile_head_false (p : Char → Bool) (l : List Char) :
    l.dropWhile p = [] ∨ ∃ a t, l.dropWhile p = a :: t ∧ p a = false := by
  induction l with
  | nil => exact Or.inl rfl
  | cons a t ih =>
    by_cases h : p a = true
    · rw [List.dropWhile_cons_of_pos h]
      exact ih
    · exact Or.inr ⟨a, t, List.dropWhile_cons_of_neg h, Bool.eq_false_iff.mpr h⟩

theorem trimCharList_has_nonWS (l : List Char) (h : trimCharList l ≠ []) :
    ∃ c ∈ trimCharList l, isWS c = false := by
  unfold trimCharList at h ⊢
  rcases dropWhile_head_false isWS ((l.dropWhile isWS).reverse) with h0 | ⟨a, t, heq, ha⟩
  · rw [h0] at h
    simp at h
  · rw [heq]
    exact ⟨a, by simp, ha⟩

theorem jsTrim_nonblank (s : String) (h : jsTrim s ≠ "") :
    textNonBlank (jsTrim s) = true := by
  have hl : trimCharList s.data ≠ [] := by
    intro h0
    apply h
    unfold jsTrim
    rw [h0]
  obtain ⟨c, hc, hws⟩ := trimCharList_has_nonWS _ hl
  show (trimCharList s.data).any (fun c => !isWS c) = true
  rw [List.any_eq_true]
  exact ⟨c, hc, by rw [hws]; rfl⟩

theorem callTrim_some (v : JSVal) (s : String) (h : v.callTrim = some s) :
    ∃ s0, s = jsTrim s0 := by
  cases v <;> simp [JSVal.callTrim] at h
  exact ⟨_, h.symm⟩

theorem mem_updateFirst (st : List TodoDoc) (i : String) (d1 d : TodoDoc)
    (h : d ∈ updateFirst st i (fun _ => d1)) : d ∈ st ∨ d = d1 := by
  induction st with
  | nil => simp [updateFirst] at h
  | cons e rest ih =>
    unfold updateFirst at h
    by_cases he : (e._id == i) = true
    · rw [if_pos he] at h
      rcases List.mem_cons.mp h with h1 | h1
      · exact Or.inr h1
      · exact Or.inl (List.mem_cons_of_mem _ h1)
    · rw [if_neg he] at h
      rcases List.mem_cons.mp h with h1 | h1
      · exact Or.inl (h1 ▸ List.mem_cons_self _ _)
      · rcases ih h1 with h2 | h2
        · exact Or.inl (List.mem_cons_of_mem _ h2)
        · exact Or.inr h2

theorem findFirst_mem (st : List TodoDoc) (i : String) (d : TodoDoc)
    (h : findFirst st i = some d) : d ∈ st :=
  List.mem_of_find?_eq_some h

theorem post_inv (st : List TodoDoc) (t dv : JSVal) (i : String) (n : Nat)
    (hinv : ∀ d ∈ st, textNonBlank d.text = true) :
    ∀ d ∈ (postTodos st t dv i n).1, textNonBlank d.text = true := by
  intro d hd
  by_cases ht : t.truthy = true
  · cases hct : t.callTrim with
    | none =>
      simp [postTodos, ht, hct] at hd
      exact hinv d hd
    | some s =>
      by_cases hs : s = ""
      · simp [postTodos, ht, hct, hs] at hd
        exact hinv d hd
      · cases hcb : castBool (if dv = JSVal.undef then JSVal.bool false else dv) with
        | none =>
          simp [postTodos, ht, hct, hs, hcb] at hd
          exact hinv d hd
        | some db =>
          simp [postTodos, ht, hct, hs, hcb] at hd
          rcases hd with hd1 | hd2
          · exact hinv d hd1
          · subst hd2
            obtain ⟨s0, rfl⟩ := callTrim_some t s hct
            exact jsTrim_nonblank s0 hs
  · have ht' : t.truthy = false := Bool.eq_false_iff.mpr ht
    simp [postTodos, ht'] at hd
    exact hinv d hd

theorem findByIdAndUpdate_ok (st : List TodoDoc) (i : String) (u : UpdateData)
    (n : Nat) (st' : List TodoDoc) (d : TodoDoc)
    (h : findByIdAndUpdate st i u n = .ok st' d) :
    ∃ d0, findFirst st i = some d0 ∧ u.text ≠ some "" ∧
      d.text = u.text.getD d0.text ∧ d.updatedAt = n ∧
      st' = updateFirst st i (fun _ => d) := by
  unfold findByIdAndUpdate at h
  by_cases hv : isValidObjectId i = true
  · cases hcd : castDoneUpdate u.done with
    | none =>
      simp [hv, hcd] at h
    | some ds =>
      by_cases hte : u.text = some ""
      · simp [hv, hcd, hte] at h
      · cases hff : findFirst st i with
        | none => simp [hv, hcd, hte, hff] at h
        | some d0 =>
          simp only [hv, hcd, hte, hff, Bool.not_true, Bool.false_eq_true,
            if_false, ite_false, UpdateResult.ok.injEq] at h
          obtain ⟨h1, h2⟩ := h
          subst h2
          exact ⟨d0, rfl, hte, rfl, rfl, h1.symm⟩
  · have hv' : isValidObjectId i = false := Bool.eq_false_iff.mpr hv
    simp [hv'] at h

theorem findByIdAndUpdate_store_inv (st : List TodoDoc) (i : String)
    (u : UpdateData) (n : Nat) (st' : List TodoDoc) (d1 : TodoDoc)
    (hu : u.text = none ∨ ∃ s0, u.text = some (jsTrim s0))
    (hok : findByIdAndUpdate st i u n = .ok st' d1)
    (hinv : ∀ d ∈ st, textNonBlank d.text = true) :
    ∀ d ∈ st', textNonBlank d.text = true := by
  obtain ⟨d0, hff, hne, hdtext, _, hst'⟩ :=
    findByIdAndUpdate_ok st i u n st' d1 hok
  intro d hd
  rw [hst'] at hd
  rcases mem_updateFirst st i d1 d hd with h1 | h1
  · exact hinv d h1
  · subst h1
    rw [hdtext]
    rcases hu with h2 | ⟨s0, h2⟩
    · rw [h2]
      exact hinv d0 (findFirst_mem _ _ _ hff)
    · rw [h2, Option.getD_some]
      apply jsTrim_nonblank
      intro he
      exact hne (by rw [h2, he])

theorem put_inv (st : List TodoDoc) (i : String) (t dv : JSVal) (n : Nat)
    (hinv : ∀ d ∈ st, textNonBlank d.text = true) :
    ∀ d ∈ (putTodos st i t dv n).1, textNonBlank d.text = true := by
  intro d hd
  unfold putTodos at hd
  by_cases hc : t ≠ JSVal.undef ∧ t.callTrim = none
  · rw [if_pos hc] at hd
    exact hinv d hd
  · rw [if_neg hc] at hd
    simp only [] at hd
    cases hres : findByIdAndUpdate st i
        ⟨if t = JSVal.undef then none else t.callTrim,
         if dv = JSVal.undef then none else some dv⟩ n with
    | castError => simp only [hres] at hd; exact hinv d hd
    | validationError => simp only [hres] at hd; exact hinv d hd
    | notFound => simp only [hres] at hd; exact hinv d hd
    | ok st2 d1 =>
      simp only [hres] at hd
      refine findByIdAndUpdate_store_inv st i
        ⟨if t = JSVal.undef then none else t.callTrim,
         if dv = JSVal.undef then none else some dv⟩ n st2 d1 ?_ hres hinv d hd
      by_cases htu : t = JSVal.undef
      · exact Or.inl (by simp [htu])
      · cases hct : t.callTrim with
        | none => exact absurd ⟨htu, hct⟩ hc
        | some s =>
          obtain ⟨s0, rfl⟩ := callTrim_some t s hct
          exact Or.inr ⟨s0, by simp [htu, hct]⟩

theorem foldl_ops_inv (ops : List Op) : ∀ st : List TodoDoc,
    (∀ d ∈ st, textNonBlank d.text = true) →
    ∀ d ∈ ops.foldl applyOp st, textNonBlank d.text = true := by
  induction ops with
  | nil => intro st h; simpa using h
  | cons op rest ih =>
    intro st h
    rw [List.foldl_cons]
    apply ih
    cases op with
    | create t dv i n => exact post_inv st t dv i n h
    | update i t dv n => exact put_inv st i t dv n h

/-! ### Claim theorems -/

/-- Claim C1: after any sequence of create (POST /todos) and update
(PUT /todos/:id) operations starting from the empty store, the `text` of
every stored todo is never an empty or whitespace-only string — it always
contains a non-whitespace character.  In particular a PUT whose body
supplies a `text` that trims to the empty string never leaves the stored
item with an empty `text` (the update validator rejects the write and the
store is unchanged). -/
theorem stored_text_never_blank (ops : List Op) (d : TodoDoc)
    (hd : d ∈ runOps ops) : textNonBlank d.text = true :=
  foldl_ops_inv ops [] (fun d h => absurd h (List.not_mem_nil d)) d hd

/-- Witness for claim C1 at a concrete one-operation run. -/
theorem stored_text_never_blank_witness :
    (⟨"aaaaaaaaaaaaaaaaaaaaaaaa", "a", some false, 0, 0, 0⟩ : TodoDoc) ∈
      runOps [Op.create (JSVal.str "  a  ") JSVal.undef
        "aaaaaaaaaaaaaaaaaaaaaaaa" 0] ∧
    textNonBlank (TodoDoc.text
      ⟨"aaaaaaaaaaaaaaaaaaaaaaaa", "a", some false, 0, 0, 0⟩) = true :=
  ⟨by decide,
   stored_text_never_blank
     [Op.create (JSVal.str "  a  ") JSVal.undef "aaaaaaaaaaaaaaaaaaaaaaaa" 0]
     ⟨"aaaaaaaaaaaaaaaaaaaaaaaa", "a", some false, 0, 0, 0⟩ (by decide)⟩

/-- Claim C2 (code bug): the SIGTERM handler is supposed to close the HTTP
listener, then the database connection, then exit with a success code,
without faulting; instead its very first statement reads the identifier
`server`, which is bound nowhere in the module (the result of `app.listen`
is never assigned), so the handler raises an uncaught ReferenceError and
never reaches a clean exit. -/
theorem sigterm_handler_faults :
    sigtermHandler = ShutdownOutcome.uncaughtReferenceError "server" ∧
    ∀ c : Nat, sigtermHandler ≠ ShutdownOutcome.cleanExit c := by
  refine ⟨by decide, fun c h => ?_⟩
  rw [show sigtermHandler = ShutdownOutcome.uncaughtReferenceError "server"
    from by decide] at h
  exact ShutdownOutcome.noConfusion h

/-- Claim C6: a POST /todos whose body `text` is absent, empty or
whitespace-only is answered 400 with error "Text is required" and the store
is unchanged — the handler returns before any database interaction. -/
theorem blank_text_create_rejected (st : List TodoDoc) (textV doneV : JSVal)
    (newId : String) (now : Nat)
    (htext : textV = JSVal.undef ∨ ∃ s, textV = JSVal.str s ∧ jsTrim s = "") :
    postTodos st textV doneV newId now =
      (st, jsonError 400 "Text is required") := by
  rcases htext with h | ⟨s, h, hts⟩
  · subst h
    rfl
  · subst h
    by_cases hs : s = ""
    · subst hs
      rfl
    · have ht : (JSVal.str s).truthy = true := by simp [JSVal.truthy, hs]
      simp [postTodos, ht, JSVal.callTrim, hts]

/-- Witness for claim C6 with a whitespace-only text. -/
theorem blank_text_create_rejected_witness :
    (JSVal.str " " = JSVal.undef ∨
      ∃ s, JSVal.str " " = JSVal.str s ∧ jsTrim s = "") ∧
    postTodos [] (JSVal.str " ") JSVal.undef "aaaaaaaaaaaaaaaaaaaaaaaa" 0 =
      ([], jsonError 400 "Text is required") :=
  ⟨Or.inr ⟨" ", rfl, by decide⟩,
   blank_text_create_rejected [] (JSVal.str " ") JSVal.undef
     "aaaaaaaaaaaaaaaaaaaaaaaa" 0 (Or.inr ⟨" ", rfl, by decide⟩)⟩

/-- Claim C7: a POST /todos whose body `text` is a string trimming to a
non-empty string and whose `done` is omitted is answered 201; the created
item stores the trimmed text and `done` false. -/
theorem create_trims_and_defaults_done (st : List TodoDoc) (s : String)
    (newId : String) (now : Nat) (hs : jsTrim s ≠ "") :
    postTodos st (JSVal.str s) JSVal.undef newId now =
      (st ++ [⟨newId, jsTrim s, some false, now, now, 0⟩],
       ⟨201, some (todoResponse
         ⟨newId, jsTrim s, some false, now, now, 0⟩)⟩) ∧
    (⟨newId, jsTrim s, some false, now, now, 0⟩ : TodoDoc).text = jsTrim s ∧
    (⟨newId, jsTrim s, some false, now, now, 0⟩ : TodoDoc).done = some false := by
  have hsne : s ≠ "" := by
    intro h
    apply hs
    rw [h]
    decide
  have ht : (JSVal.str s).truthy = true := by simp [JSVal.truthy, hsne]
  refine ⟨?_, rfl, rfl⟩
  simp [postTodos, ht, JSVal.callTrim, hs, castBool]

/-- Witness for claim C7: "  buy milk  " is stored as "buy milk" with done
false. -/
theorem create_trims_and_defaults_done_witness :
    jsTrim "  buy milk  " ≠ "" ∧
    postTodos [] (JSVal.str "  buy milk  ") JSVal.undef
        "aaaaaaaaaaaaaaaaaaaaaaaa" 7 =
      ([⟨"aaaaaaaaaaaaaaaaaaaaaaaa", jsTrim "  buy milk  ",
          some false, 7, 7, 0⟩],
       ⟨201, some (todoResponse ⟨"aaaaaaaaaaaaaaaaaaaaaaaa",
         jsTrim "  buy milk  ", some false, 7, 7, 0⟩)⟩) ∧
    jsTrim "  buy milk  " = "buy milk" :=
  ⟨by decide,
   (create_trims_and_defaults_done [] "  buy milk  "
     "aaaaaaaaaaaaaaaaaaaaaaaa" 7 (by decide)).1,
   by decide⟩

/-- Claim C9: a POST /todos whose body `text` is truthy but not a string is
not answered 400: the `.trim()` call faults (TypeError) and the catch branch
answers 500 with error "Failed to create todo"; the store is unchanged. -/
theorem nonstring_truthy_text_500 (st : List TodoDoc) (textV doneV : JSVal)
    (newId : String) (now : Nat)
    (htruthy : textV.truthy = true) (hnonstr : textV.callTrim = none) :
    postTodos st textV doneV newId now =
      (st, jsonError 500 "Failed to create todo") := by
  simp [postTodos, htruthy, hnonstr]

/-- Witness for claim C9 with the number 5 as text. -/
theorem nonstring_truthy_text_500_witness :
    (JSVal.num 5).truthy = true ∧ (JSVal.num 5).callTrim = none ∧
    postTodos [] (JSVal.num 5) JSVal.undef "aaaaaaaaaaaaaaaaaaaaaaaa" 0 =
      ([], jsonError 500 "Failed to create todo") :=
  ⟨by decide, rfl,
   nonstring_truthy_text_500 [] (JSVal.num 5) JSVal.undef
     "aaaaaaaaaaaaaaaaaaaaaaaa" 0 (by decide) rfl⟩

/-- A concrete stored document for exercising GET /todos. -/
def sampleDocC3 : TodoDoc :=
  ⟨"aaaaaaaaaaaaaaaaaaaaaaaa", "x", some false, 0, 0, 0⟩

/-- Claim C3 counterexample: on a one-item store, GET /todos returns the raw
document serialization: the element's field names are
_id, text, done, createdAt, updatedAt, __v — not the claimed
id, text, done, createdAt, updatedAt. -/
theorem getTodos_field_shape_cex :
    (getTodos [sampleDocC3]).status = 200 ∧
    (getTodos [sampleDocC3]).body =
      some (Json.arr [TodoDoc.toJSON sampleDocC3]) ∧
    objFields (TodoDoc.toJSON sampleDocC3) =
      ["_id", "text", "done", "createdAt", "updatedAt", "__v"] ∧
    objFields (TodoDoc.toJSON sampleDocC3) ≠
      ["id", "text", "done", "createdAt", "updatedAt"] :=
  ⟨rfl, rfl, rfl, by decide⟩

/-- Claim C3 (amended): for every store, GET /todos returns 200 with a JSON
array holding exactly the stored items (a permutation of the store) ordered
by createdAt descending; but each element is the raw document serialization
whose fields are _id, text, done, createdAt, updatedAt, __v — the handler
passes the documents to res.json unmapped, so there is no `id` field. -/
theorem getTodos_sorted_raw_docs (st : List TodoDoc) :
    (getTodos st).status = 200 ∧
    ∃ l : List TodoDoc,
      (getTodos st).body = some (Json.arr (l.map TodoDoc.toJSON)) ∧
      l.Perm st ∧
      l.Pairwise (fun a b => b.createdAt ≤ a.createdAt) ∧
      ∀ d ∈ l, objFields (TodoDoc.toJSON d) =
        ["_id", "text", "done", "createdAt", "updatedAt", "__v"] := by
  refine ⟨rfl, sortByCreatedDesc st, rfl, List.perm_insertionSort _ _, ?_, ?_⟩
  · exact List.sorted_insertionSort byCreatedDesc st
  · intro d _
    rfl

/-- Claim C5 counterexample: a PUT with the malformed identifier
"not-a-valid-id" whose body text is the number 5 is answered 500, not 400 —
the trim TypeError preempts the identifier cast. -/
theorem invalid_id_put_nonstring_text_cex :
    isValidObjectId "not-a-valid-id" = false ∧
    (putTodos [] "not-a-valid-id" (JSVal.num 5) JSVal.undef 0).2.status = 500 ∧
    (putTodos [] "not-a-valid-id" (JSVal.num 5) JSVal.undef 0).2.status ≠ 400 :=
  ⟨by decide, rfl, by decide⟩

/-- Claim C5 (amended): GET and DELETE on /todos/:id with a malformed
identifier are answered 400 with error "Invalid todo ID format" — never 404
or 500 — for any request, and so is PUT provided the body's text field is
absent or a string; when a PUT body carries a truthy non-string text, the
trim fault preempts the identifier check and yields 500 instead. -/
theorem invalid_id_rejected (st : List TodoDoc) (idStr : String)
    (textV doneV : JSVal) (now : Nat)
    (hinvalid : isValidObjectId idStr = false)
    (htext : textV = JSVal.undef ∨ ∃ s, textV = JSVal.str s) :
    getTodoById st idStr = jsonError 400 "Invalid todo ID format" ∧
    putTodos st idStr textV doneV now =
      (st, jsonError 400 "Invalid todo ID format") ∧
    deleteTodo st idStr = (st, jsonError 400 "Invalid todo ID format") := by
  have hct : ¬(textV ≠ JSVal.undef ∧ textV.callTrim = none) := by
    rcases htext with h | ⟨s, h⟩
    · subst h
      simp
    · subst h
      simp [JSVal.callTrim]
  refine ⟨?_, ?_, ?_⟩
  · simp [getTodoById, hinvalid]
  · simp [putTodos, hct, findByIdAndUpdate, hinvalid]
  · simp [deleteTodo, hinvalid]

/-- Witness for claim C5 (amended) at "not-a-valid-id" with an empty body. -/
theorem invalid_id_rejected_witness :
    isValidObjectId "not-a-valid-id" = false ∧
    getTodoById [] "not-a-valid-id" = jsonError 400 "Invalid todo ID format" ∧
    putTodos [] "not-a-valid-id" JSVal.undef JSVal.undef 0 =
      ([], jsonError 400 "Invalid todo ID format") ∧
    deleteTodo [] "not-a-valid-id" =
      ([], jsonError 400 "Invalid todo ID format") :=
  ⟨by decide,
   invalid_id_rejected [] "not-a-valid-id" JSVal.undef JSVal.undef 0
     (by decide) (Or.inl rfl)⟩

/-- Claim C10: a PUT on a well-formed identifier whose body `done` value
cannot be cast to a boolean by the store layer (body text absent or a
string) is answered with the identifier-specific 400 body
"Invalid todo ID format", even though the identifier is valid; the store is
unchanged. -/
theorem put_bad_done_cast_400 (st : List TodoDoc) (idStr : String)
    (textV doneV : JSVal) (now : Nat)
    (hvalid : isValidObjectId idStr = true)
    (htext : textV = JSVal.undef ∨ ∃ s, textV = JSVal.str s)
    (hnotundef : doneV ≠ JSVal.undef)
    (hcast : castBool doneV = none) :
    putTodos st idStr textV doneV now =
      (st, jsonError 400 "Invalid todo ID format") := by
  have hct : ¬(textV ≠ JSVal.undef ∧ textV.callTrim = none) := by
    rcases htext with h | ⟨s, h⟩
    · subst h
      simp
    · subst h
      simp [JSVal.callTrim]
  simp [putTodos, hct, findByIdAndUpdate, hvalid, castDoneUpdate,
    hnotundef, hcast]

/-- Witness for claim C10 with done = "nope" on a valid identifier. -/
theorem put_bad_done_cast_400_witness :
    isValidObjectId "aaaaaaaaaaaaaaaaaaaaaaaa" = true ∧
    castBool (JSVal.str "nope") = none ∧
    putTodos [] "aaaaaaaaaaaaaaaaaaaaaaaa" JSVal.undef (JSVal.str "nope") 0 =
      ([], jsonError 400 "Invalid todo ID format") :=
  ⟨by decide, by decide,
   put_bad_done_cast_400 [] "aaaaaaaaaaaaaaaaaaaaaaaa" JSVal.undef
     (JSVal.str "nope") 0 (by decide) (Or.inl rfl) (by decide) (by decide)⟩

theorem findFirst_append_fresh (st : List TodoDoc) (d : TodoDoc) (i : String)
    (hfresh : ∀ e ∈ st, e._id ≠ i) (hd : d._id = i) :
    findFirst (st ++ [d]) i = some d := by
  induction st with
  | nil =>
    simp [findFirst, List.find?, hd]
  | cons e rest ih =>
    have he : (e._id == i) = false := by
      simp [hfresh e (List.mem_cons_self e rest)]
    unfold findFirst at ih ⊢
    rw [List.cons_append, List.find?_cons_of_neg _ (by simp [he])]
    exact ih (fun x hx => hfresh x (List.mem_cons_of_mem e hx))

theorem findFirst_split (st : List TodoDoc) (i : String) (d0 : TodoDoc)
    (h : findFirst st i = some d0) :
    ∃ l1 l2, st = l1 ++ d0 :: l2 ∧ (∀ e ∈ l1, (e._id == i) = false) ∧
      ∀ f : TodoDoc → TodoDoc, updateFirst st i f = l1 ++ f d0 :: l2 := by
  induction st with
  | nil => simp [findFirst] at h
  | cons e rest ih =>
    by_cases he : (e._id == i) = true
    · have he' : e = d0 := by
        have := h
        unfold findFirst at this
        rw [List.find?_cons_of_pos _ (by simpa using he)] at this
        exact Option.some.inj this
      subst he'
      refine ⟨[], rest, rfl, by simp, fun f => ?_⟩
      unfold updateFirst
      rw [if_pos he]
      rfl
    · have he' : (e._id == i) = false := Bool.eq_false_iff.mpr he
      have hrest : findFirst rest i = some d0 := by
        have := h
        unfold findFirst at this ⊢
        rwa [List.find?_cons_of_neg _ (by simp [he'])] at this
      obtain ⟨l1, l2, hst, hl1, hupd⟩ := ih hrest
      refine ⟨e :: l1, l2, by rw [List.cons_append, ← hst], ?_, fun f => ?_⟩
      · intro x hx
        rcases List.mem_cons.mp hx with h1 | h1
        · exact h1 ▸ he'
        · exact hl1 x h1
      · unfold updateFirst
        rw [if_neg (by simp [he'])]
        rw [hupd f, List.cons_append]

/-- Claim C4: a successful POST /todos (status 201) appends one document to
the store, with `updatedAt` equal to `createdAt` at the moment of creation;
an immediately following GET /todos/:id on the returned id answers 200 with
the same five-field body as the creation response (same id, text, done). -/
theorem create_then_get_roundtrip (st st' : List TodoDoc)
    (textV doneV : JSVal) (newId : String) (now : Nat) (r : HttpResponse)
    (hpost : postTodos st textV doneV newId now = (st', r))
    (hstatus : r.status = 201)
    (hvalid : isValidObjectId newId = true)
    (hfresh : ∀ e ∈ st, e._id ≠ newId) :
    ∃ d : TodoDoc, st' = st ++ [d] ∧ d._id = newId ∧
      d.updatedAt = d.createdAt ∧ d.createdAt = now ∧
      r = ⟨201, some (todoResponse d)⟩ ∧
      getTodoById st' newId = ⟨200, some (todoResponse d)⟩ := by
  by_cases ht : textV.truthy = true
  · cases hct : textV.callTrim with
    | none =>
      exfalso
      simp [postTodos, ht, hct, Prod.mk.injEq] at hpost
      rw [← hpost.2] at hstatus
      simp [jsonError] at hstatus
    | some s =>
      by_cases hs : s = ""
      · exfalso
        simp [postTodos, ht, hct, hs, Prod.mk.injEq] at hpost
        rw [← hpost.2] at hstatus
        simp [jsonError] at hstatus
      · cases hcb : castBool
            (if doneV = JSVal.undef then JSVal.bool false else doneV) with
        | none =>
          exfalso
          simp [postTodos, ht, hct, hs, hcb, Prod.mk.injEq] at hpost
          rw [← hpost.2] at hstatus
          simp [jsonError] at hstatus
        | some db =>
          simp [postTodos, ht, hct, hs, hcb, Prod.mk.injEq] at hpost
          obtain ⟨h1, h2⟩ := hpost
          refine ⟨⟨newId, s, db, now, now, 0⟩, h1.symm, rfl, rfl, rfl,
            h2.symm, ?_⟩
          rw [← h1]
          simp only [getTodoById, hvalid, Bool.not_true, Bool.false_eq_true,
            if_false,
            findFirst_append_fresh st ⟨newId, s, db, now, now, 0⟩ newId
              hfresh rfl]
  · exfalso
    have ht' : textV.truthy = false := Bool.eq_false_iff.mpr ht
    simp [postTodos, ht', Prod.mk.injEq] at hpost
    rw [← hpost.2] at hstatus
    simp [jsonError] at hstatus

/-- The document used in the claim C4 witness. -/
def sampleDocC4 : TodoDoc := ⟨"aaaaaaaaaaaaaaaaaaaaaaaa", "hi", some false, 0, 0, 0⟩

/-- Witness for claim C4: create "hi" on an empty store, then get it back. -/
theorem create_then_get_roundtrip_witness :
    ∃ d : TodoDoc, [sampleDocC4] = [] ++ [d] ∧
      d._id = "aaaaaaaaaaaaaaaaaaaaaaaa" ∧
      d.updatedAt = d.createdAt ∧ d.createdAt = 0 ∧
      (⟨201, some (todoResponse sampleDocC4)⟩ : HttpResponse) =
        ⟨201, some (todoResponse d)⟩ ∧
      getTodoById [sampleDocC4] "aaaaaaaaaaaaaaaaaaaaaaaa" =
        ⟨200, some (todoResponse d)⟩ :=
  create_then_get_roundtrip [] [sampleDocC4] (JSVal.str "hi") JSVal.undef
    "aaaaaaaaaaaaaaaaaaaaaaaa" 0 ⟨201, some (todoResponse sampleDocC4)⟩
    rfl rfl (by decide) (fun e he => absurd he (List.not_mem_nil e))

/-- Claim C8: a PUT /todos/:id with body done true and no text on an
existing item changes only that item (the store keeps every other document),
and on it only `done` and `updatedAt`: the updated document keeps `text`,
`createdAt` and `_id`, gets done true, and its `updatedAt` becomes the
current time, which is at least the prior `updatedAt` when the clock is
monotone; the response is 200 with the updated five-field body. -/
theorem put_done_only_frame (st : List TodoDoc) (idStr : String)
    (now : Nat) (d0 : TodoDoc)
    (hvalid : isValidObjectId idStr = true)
    (hfind : findFirst st idStr = some d0)
    (hmono : d0.updatedAt ≤ now) :
    ∃ d1 : TodoDoc, d1.text = d0.text ∧ d1.createdAt = d0.createdAt ∧
      d1._id = d0._id ∧ d1.done = some true ∧ d1.updatedAt = now ∧
      d0.updatedAt ≤ d1.updatedAt ∧
      ∃ l1 l2, st = l1 ++ d0 :: l2 ∧
        putTodos st idStr JSVal.undef (JSVal.bool true) now =
          (l1 ++ d1 :: l2, ⟨200, some (todoResponse d1)⟩) := by
  obtain ⟨l1, l2, hst, hl1, hupd⟩ := findFirst_split st idStr d0 hfind
  refine ⟨{ d0 with done := some true, updatedAt := now }, rfl, rfl, rfl,
    rfl, rfl, hmono, l1, l2, hst, ?_⟩
  simp [putTodos, findByIdAndUpdate, hvalid, castDoneUpdate, castBool,
    hfind, hupd]

/-- The pre-existing document used in the claim C8 witness. -/
def sampleDocC8 : TodoDoc := ⟨"aaaaaaaaaaaaaaaaaaaaaaaa", "hello", some false, 1, 3, 0⟩

/-- Witness for claim C8: flipping done on a one-item store at time 5. -/
theorem put_done_only_frame_witness :
    ∃ d1 : TodoDoc, d1.text = sampleDocC8.text ∧
      d1.createdAt = sampleDocC8.createdAt ∧
      d1._id = sampleDocC8._id ∧ d1.done = some true ∧ d1.updatedAt = 5 ∧
      sampleDocC8.updatedAt ≤ d1.updatedAt ∧
      ∃ l1 l2, [sampleDocC8] = l1 ++ sampleDocC8 :: l2 ∧
        putTodos [sampleDocC8] "aaaaaaaaaaaaaaaaaaaaaaaa" JSVal.undef
            (JSVal.bool true) 5 =
          (l1 ++ d1 :: l2, ⟨200, some (todoResponse d1)⟩) :=
  put_done_only_frame [sampleDocC8] "aaaaaaaaaaaaaaaaaaaaaaaa" 5 sampleDocC8
    (by decide) (by decide) (by decide)
